import Mathlib

/-!
Shallow embedding of the mDNS device-discovery core from
`src/src/device_discovery.cpp` (class `DeviceDiscovery::Impl`).

Byte buffers are modelled as `List Nat` (each element a byte value).
Pointer-walking C++ code is modelled with explicit positions into the
message list; the recursion of `parseDNSName` through compression
pointers has no bound in the source, so the model takes an explicit
`fuel` argument and reports exhaustion with a dedicated constructor.
A read through an unchecked pointer past the end of the buffer
(undefined behaviour in the C++) is modelled by a dedicated `oob`
outcome recording the offending index.
-/

namespace MDNS

/-- Big-endian 16-bit read at offset `i`, as done by expressions such as
`(ptr[0] << 8) | ptr[1]` in the source.  Out-of-range bytes read as 0;
the source only uses this at positions it has checked. -/
def readU16 (msg : List Nat) (i : Nat) : Nat :=
  msg.getD i 0 * 256 + msg.getD (i + 1) 0

/-- Result of `parseDNSName`: `ok name pos` models `return true` with the
cursor left at `pos`; `fail pos` models `return false` with the cursor at
`pos`; `oob i` models an out-of-bounds read at index `i` (C++ undefined
behaviour); `noFuel` marks exhaustion of the recursion bound that the
model adds (the source has none). -/
inductive NameRes
  | ok (name : List Nat) (pos : Nat)
  | fail (pos : Nat)
  | oob (i : Nat)
  | noFuel
deriving DecidableEq

/-- Model of `DeviceDiscovery::Impl::parseDNSName` (device_discovery.cpp,
lines 567-639).  `pos` is the cursor `ptr - basePtr`, `acc` the name built
so far, `first` the `first` flag.  The pointer test mirrors the source
exactly: `len & 0xC0` nonzero (not `== 0xC0`); the second pointer byte at
`pos + 1` is read without a bounds check in the source, so when it lies
at or past the end the model returns `oob`. -/
def parseDNSName (msg : List Nat) : Nat → Nat → List Nat → Bool → NameRes
  | 0, _, _, _ => .noFuel
  | fuel + 1, pos, acc, first =>
    if pos < msg.length then
      if msg.getD pos 0 &&& 192 ≠ 0 then
        if pos + 1 < msg.length then
          if msg.length ≤ ((msg.getD pos 0 &&& 63) <<< 8) ||| msg.getD (pos + 1) 0 then
            .fail (pos + 1)
          else
            match parseDNSName msg fuel (((msg.getD pos 0 &&& 63) <<< 8) ||| msg.getD (pos + 1) 0) [] true with
            | .ok rest _ => .ok (acc ++ (if first then [] else [46]) ++ rest) (pos + 2)
            | .fail _ => .fail (pos + 1)
            | .oob i => .oob i
            | .noFuel => .noFuel
        else .oob (pos + 1)
      else if msg.getD pos 0 = 0 then
        if acc = [] then .fail (pos + 1) else .ok acc (pos + 1)
      else if msg.length < pos + 1 + msg.getD pos 0 then .fail (pos + 1)
      else
        parseDNSName msg fuel (pos + 1 + msg.getD pos 0)
          (acc ++ (if first then [] else [46]) ++ (msg.drop (pos + 1)).take (msg.getD pos 0)) false
    else if acc = [] then .fail pos else .ok acc pos

/-- Entry point corresponding to a call `parseDNSName(basePtr, ptr, end, name)`
with `name` freshly cleared, returning `some name` on success. -/
def decodeName (msg : List Nat) (fuel : Nat) : Option (List Nat) :=
  match parseDNSName msg fuel 0 [] true with
  | .ok n _ => some n
  | _ => none

/-- Model of `DeviceDiscovery::Impl::addDNSName` (lines 350-373): split the
name on `.` (byte 46), emit each label before the final one unconditionally
as a length byte (`static_cast<uint8_t>`, hence `% 256`) followed by the
label bytes, emit the final label only if non-empty, then a 0 terminator. -/
def addDNSName (name : List Nat) : List Nat :=
  (name.splitOn 46).dropLast.flatMap (fun l => l.length % 256 :: l) ++
    (match (name.splitOn 46).getLast? with
     | some l => if l = [] then [] else l.length % 256 :: l
     | none => []) ++ [0]

/-- All labels encoded unconditionally; `addDNSName` agrees with this when
every label is non-empty. -/
def encodeParts (L : List (List Nat)) : List Nat :=
  L.flatMap (fun l => l.length % 256 :: l) ++ [0]

/-- Big-endian bytes of a 16-bit value, as laid down by `htons` stores. -/
def u16be (v : Nat) : List Nat := [v / 256 % 256, v % 256]

/-- The mDNS query message assembled by `DeviceDiscovery::Impl::sendQuery`
(lines 309-348): a `DNSHeader` zero-initialised except
`flags = htons(0x0100)` and `qdcount = htons(1)`, then the encoded service
name, then type PTR (12) and class IN (1). -/
def buildQuery (serviceType : List Nat) : List Nat :=
  u16be 0 ++ u16be 256 ++ u16be 1 ++ u16be 0 ++ u16be 0 ++ u16be 0 ++
    addDNSName serviceType ++ u16be 12 ++ u16be 1

/-- Split a TXT entry at its first `=` (byte 61), as `record.find('=')`
followed by the two `substr` calls does: `some (key, value)` when an `=`
is present, `none` otherwise. -/
def splitEq : List Nat → Option (List Nat × List Nat)
  | [] => none
  | b :: rest =>
    if b = 61 then some ([], rest)
    else
      match splitEq rest with
      | some (k, v) => some (b :: k, v)
      | none => none

/-- `txtRecords[key] = value` on a `std::map` modelled as an association
list: replace the value of an existing key in place, otherwise append. -/
def upsert : List (List Nat × List Nat) → List Nat → List Nat → List (List Nat × List Nat)
  | [], k, v => [(k, v)]
  | (k', v') :: rest, k, v =>
    if k' = k then (k, v) :: rest else (k', v') :: upsert rest k v

/-- Lookup in the association-list model of `std::map`. -/
def lookupKey : List (List Nat × List Nat) → List Nat → Option (List Nat)
  | [], _ => none
  | (k', v') :: rest, k => if k' = k then some v' else lookupKey rest k

/-- Model of `DeviceDiscovery::Impl::parseTXT` (lines 651-679) on the
record-data slice: read a length byte, stop (keeping what was decoded) if
the declared length exceeds the remaining slice, otherwise split the entry
on its first `=` (entries without `=` are skipped) and store it, last
write winning, then continue until the slice is exhausted. -/
def parseTXT : List Nat → List (List Nat × List Nat) → List (List Nat × List Nat)
  | [], txt => txt
  | len :: rest, txt =>
    if rest.length < len then txt
    else
      match splitEq (rest.take len) with
      | some (k, v) => parseTXT (rest.drop len) (upsert txt k v)
      | none => parseTXT (rest.drop len) txt
termination_by l _ => l.length
decreasing_by
  all_goals simp only [List.length_drop, List.length_cons]
  all_goals omega

/-- Result of `parseRecordHeader`: on success the decoded name, type,
data length and the position of the record data (`rdata - basePtr`). -/
inductive RecRes
  | ok (name : List Nat) (rtype rdlength rdataPos : Nat)
  | fail (pos : Nat)
  | oob (i : Nat)
  | noFuel
deriving DecidableEq

/-- Model of `DeviceDiscovery::Impl::parseRecordHeader` (lines 517-550):
decode the record name, require 10 header bytes, read type and data
length big-endian, require the data to fit in the message. On failure the
cursor (reported in `fail`) is exactly where the source leaves `ptr`. -/
def parseRecordHeader (msg : List Nat) (fuel pos : Nat) : RecRes :=
  match parseDNSName msg fuel pos [] true with
  | .ok name p =>
    if msg.length < p + 10 then .fail p
    else if msg.length < p + 10 + readU16 msg (p + 8) then .fail (p + 10)
    else .ok name (readU16 msg p) (readU16 msg (p + 8)) (p + 10)
  | .fail p => .fail p
  | .oob i => .oob i
  | .noFuel => .noFuel

/-- The `DeviceInfo` struct of device_discovery.h: `name` and `ip` as byte
strings (the address abstracted to a number), `txtRecords` as the
association-list model of the `std::map`. -/
structure DeviceInfo where
  name : List Nat
  ip : Nat
  txtRecords : List (List Nat × List Nat)
deriving DecidableEq

/-- The byte string "_leboremote._tcp.local" that `parseMDNSResponse`
searches for inside each record name. -/
def targetService : List Nat :=
  [95, 108, 101, 98, 111, 114, 101, 109, 111, 116, 101, 46,
   95, 116, 99, 112, 46, 108, 111, 99, 97, 108]

/-- Result of the answer-record loop: the candidate `tempInfo` and the
`isTargetService` flag, or an out-of-bounds read, or fuel exhaustion. -/
inductive AnsRes
  | done (info : DeviceInfo) (isTarget : Bool)
  | oob
  | noFuel
deriving DecidableEq

/-- Model of the answer loop of `parseMDNSResponse` (lines 429-467): for
each of `n` answers decode a record header; on failure the source logs and
`continue`s, so the loop simply moves on from wherever the failed parse
left the cursor.  On success: a name containing the target service sets
the flag and the candidate's name; a TXT record (type 16) is decoded into
the candidate's attributes when the flag is set; the cursor then jumps to
the end of the record data. -/
def parseAnswers (msg : List Nat) (fuel : Nat) : Nat → Nat → DeviceInfo → Bool → AnsRes
  | 0, _, info, t => .done info t
  | n + 1, pos, info, t =>
    match parseRecordHeader msg fuel pos with
    | .fail p => parseAnswers msg fuel n p info t
    | .oob _ => .oob
    | .noFuel => .noFuel
    | .ok name rtype rdlength rdataPos =>
      parseAnswers msg fuel n (rdataPos + rdlength)
        (if decide (targetService <:+: name) then
          (if rtype = 16 then
            { name := name, ip := info.ip,
              txtRecords := parseTXT ((msg.drop rdataPos).take rdlength) info.txtRecords }
          else { name := name, ip := info.ip, txtRecords := info.txtRecords })
        else
          (if rtype = 16 ∧ t = true then
            { name := info.name, ip := info.ip,
              txtRecords := parseTXT ((msg.drop rdataPos).take rdlength) info.txtRecords }
          else info))
        (t || decide (targetService <:+: name))

/-- Result of the question-skipping loop of `parseMDNSResponse`
(lines 413-420): on a successful name parse skip 4 more bytes, on failure
continue from where the parse stopped. -/
inductive SkipRes
  | done (pos : Nat)
  | oob
  | noFuel
deriving DecidableEq

/-- The question-skipping loop of `parseMDNSResponse` (lines 413-420). -/
def skipQuestions (msg : List Nat) (fuel : Nat) : Nat → Nat → SkipRes
  | 0, pos => .done pos
  | n + 1, pos =>
    match parseDNSName msg fuel pos [] true with
    | .ok _ p => skipQuestions msg fuel n (p + 4)
    | .fail p => skipQuestions msg fuel n p
    | .oob _ => .oob
    | .noFuel => .noFuel

/-- `std::find_if` over the registry comparing `d.name == tempInfo.name`
(lines 473-477), returning the index of the first match. -/
def findDevice (registry : List DeviceInfo) (name : List Nat) : Option Nat :=
  registry.findIdx? (fun d => decide (d.name = name))

/-- The registry update of `parseMDNSResponse` (lines 472-508), after the
guard: look the candidate up by name; if absent append it and notify; if
present and the candidate has TXT records, replace the entry's records and
address in place and notify; otherwise change nothing and stay silent.
Returns the new registry and the list of callback invocations. -/
def reconcile (registry : List DeviceInfo) (cand : DeviceInfo) :
    List DeviceInfo × List DeviceInfo :=
  match findDevice registry cand.name with
  | none => (registry ++ [cand], [cand])
  | some i =>
    if cand.txtRecords ≠ [] then
      (registry.set i
        { name := (registry.getD i cand).name, ip := cand.ip, txtRecords := cand.txtRecords },
       [{ name := (registry.getD i cand).name, ip := cand.ip, txtRecords := cand.txtRecords }])
    else (registry, [])

/-- The guard of line 470: the candidate is only reconciled when its name
is non-empty and some answer identified the target service. -/
def reconcileIfTarget (registry : List DeviceInfo) (cand : DeviceInfo) (isTarget : Bool) :
    List DeviceInfo × List DeviceInfo :=
  if cand.name ≠ [] ∧ isTarget = true then reconcile registry cand else (registry, [])

/-- Outcome of processing one datagram: the registry after the call and
the callback invocations, or an out-of-bounds read, or exhaustion of the
model's recursion fuel (the source recurses without bound). -/
inductive ParseOutcome
  | done (registry : List DeviceInfo) (events : List DeviceInfo)
  | oobRead
  | outOfFuel
deriving DecidableEq

/-- Model of `DeviceDiscovery::Impl::parseMDNSResponse` (lines 378-515):
drop datagrams shorter than the 12-byte header or without the response
flag (bit 15 of the flags word); skip the questions; run the answer loop
building a candidate; reconcile the candidate into the registry under the
guard of line 470. -/
def parseMDNSResponse (msg : List Nat) (senderIp : Nat) (registry : List DeviceInfo)
    (fuel : Nat) : ParseOutcome :=
  if msg.length < 12 then .done registry []
  else if readU16 msg 2 &&& 32768 = 0 then .done registry []
  else
    match skipQuestions msg fuel (readU16 msg 4) 12 with
    | .oob => .oobRead
    | .noFuel => .outOfFuel
    | .done pos =>
      match parseAnswers msg fuel (readU16 msg 6) pos
          { name := [], ip := senderIp, txtRecords := [] } false with
      | .oob => .oobRead
      | .noFuel => .outOfFuel
      | .done info t => .done (reconcileIfTarget registry info t).1 (reconcileIfTarget registry info t).2

/-- The mutable state of `DeviceDiscovery::Impl`: the `running` flag, the
socket (abstracted to whether one is open) and `discoveredDevices`. -/
structure ImplState where
  running : Bool
  socketOpen : Bool
  discoveredDevices : List DeviceInfo
deriving DecidableEq

/-- Model of `DeviceDiscovery::Impl::stopDiscovery` (lines 274-299): a
no-op when not running; otherwise clear the running flag, close the
socket and join the receive thread.  `discoveredDevices` is not touched. -/
def stopDiscovery (s : ImplState) : ImplState :=
  if s.running = false then s
  else { running := false, socketOpen := false, discoveredDevices := s.discoveredDevices }

/-- Results of the socket system calls made by `startDiscovery`, supplied
by the environment. -/
structure NetEnv where
  socketOk : Bool
  reuseOk : Bool
  bindOk : Bool
  joinOk : Bool
  sendOk : Bool
deriving DecidableEq

/-- Externally visible actions of `startDiscovery`. -/
inductive StartEvent
  | socketCreated
  | querySent (q : List Nat)
  | threadSpawned
deriving DecidableEq

/-- Model of `DeviceDiscovery::Impl::startDiscovery` (lines 172-272):
refuse immediately when already running; otherwise create the socket, set
options, bind, join the multicast group and send the initial query, each
failure closing the socket and reporting failure; on success set `running`
and spawn the receive thread.  Returns the reported success flag, the
state after the call and the events that occurred. -/
def startDiscovery (s : ImplState) (serviceType : List Nat) (env : NetEnv) :
    Bool × ImplState × List StartEvent :=
  if s.running = true then (false, s, [])
  else if env.socketOk = false then (false, s, [])
  else if env.reuseOk = false then
    (false, { s with socketOpen := false }, [.socketCreated])
  else if env.bindOk = false then
    (false, { s with socketOpen := false }, [.socketCreated])
  else if env.joinOk = false then
    (false, { s with socketOpen := false }, [.socketCreated])
  else if env.sendOk = false then
    (false, { s with socketOpen := false }, [.socketCreated])
  else
    (true, { running := true, socketOpen := true, discoveredDevices := s.discoveredDevices },
     [.socketCreated, .querySent (buildQuery serviceType), .threadSpawned])

/-! Helper lemmas. -/

/-- A name whose bytes at offset 12 are `0xC0 0x0C` points at itself;
every recursion bound is exhausted, modelling the unbounded recursion of
the source. -/
theorem loop_noFuel (fuel : Nat) :
    parseDNSName [0, 0, 128, 0, 0, 0, 0, 1, 0, 0, 0, 0, 192, 12] fuel 12 [] true =
      NameRes.noFuel := by
  induction fuel with
  | zero => rfl
  | succ n ih =>
    have h : parseDNSName [0, 0, 128, 0, 0, 0, 0, 1, 0, 0, 0, 0, 192, 12] (n + 1) 12 [] true =
        match parseDNSName [0, 0, 128, 0, 0, 0, 0, 1, 0, 0, 0, 0, 192, 12] n 12 [] true with
        | NameRes.ok rest _ => NameRes.ok rest 14
        | NameRes.fail _ => NameRes.fail 13
        | NameRes.oob i => NameRes.oob i
        | NameRes.noFuel => NameRes.noFuel := rfl
    rw [h, ih]

/-- One step of the answer loop when the record header fails to decode:
the source logs and continues from where the failed parse left the
cursor. -/
theorem parseAnswers_fail_step (msg : List Nat) (fuel n pos p : Nat)
    (info : DeviceInfo) (t : Bool)
    (h : parseRecordHeader msg fuel pos = RecRes.fail p) :
    parseAnswers msg fuel (n + 1) pos info t = parseAnswers msg fuel n p info t := by
  rw [parseAnswers, h]

/-- An entry with no `=` byte has no split. -/
theorem splitEq_of_no_sep (e : List Nat) (h : (61 : Nat) ∉ e) : splitEq e = none := by
  induction e with
  | nil => rfl
  | cons b rest ih =>
    have hb : b ≠ 61 := fun hb => h (hb ▸ List.mem_cons_self b rest)
    have hr : (61 : Nat) ∉ rest := fun hr => h (List.mem_cons_of_mem b hr)
    simp [splitEq, hb, ih hr]

/-- Splitting `key ++ '=' ++ value` at the first `=` when the key has
none. -/
theorem splitEq_key_value (k v : List Nat) (h : (61 : Nat) ∉ k) :
    splitEq (k ++ 61 :: v) = some (k, v) := by
  induction k with
  | nil => simp [splitEq]
  | cons b rest ih =>
    have hb : b ≠ 61 := fun hb => h (hb ▸ List.mem_cons_self b rest)
    have hr : (61 : Nat) ∉ rest := fun hr => h (List.mem_cons_of_mem b hr)
    simp [splitEq, hb, ih hr]

/-- After an in-place update, lookup returns the new value. -/
theorem lookupKey_upsert (m : List (List Nat × List Nat)) (k v : List Nat) :
    lookupKey (upsert m k v) k = some v := by
  induction m with
  | nil => simp [upsert, lookupKey]
  | cons p rest ih =>
    obtain ⟨k', v'⟩ := p
    by_cases hp : k' = k
    · simp [upsert, hp, lookupKey]
    · simp [upsert, hp, lookupKey, ih]

/-- The element stored at the length of the prefix. -/
theorem getD_append_cons (pre : List Nat) (x : Nat) (rest : List Nat) :
    (pre ++ x :: rest).getD pre.length 0 = x := by
  induction pre with
  | nil => rfl
  | cons a l ih => simpa using ih

/-- Dropping the prefix and one more element. -/
theorem drop_append_cons (pre : List Nat) (x : Nat) (rest : List Nat) :
    (pre ++ x :: rest).drop (pre.length + 1) = rest := by
  have h : pre ++ x :: rest = (pre ++ [x]) ++ rest := by simp
  rw [h, List.drop_left' (by simp)]

/-- Bytes below 64 have neither of the two top bits of an octet set. -/
theorem land_192_eq_zero (n : Nat) (h : n < 64) : n &&& 192 = 0 := by
  have h64 : ∀ i : Fin 64, (i : Nat) &&& 192 = 0 := by decide
  exact h64 ⟨n, h⟩

/-- Each encoded label contributes at least its length byte, and the
terminator one more byte. -/
theorem encodeParts_length_lt (L : List (List Nat)) : L.length < (encodeParts L).length := by
  induction L with
  | nil => simp [encodeParts]
  | cons l L ih =>
    simp only [encodeParts, List.flatMap_cons, List.length_append, List.length_cons,
      List.append_assoc] at ih ⊢
    omega

/-- Reading one plain label `<len><bytes>` advances the cursor past it and
appends the label (after a dot when not first) to the accumulator. -/
theorem parse_label_step (msg pre l tail acc : List Nat) (first : Bool) (fuel pos : Nat)
    (hmsg : msg = pre ++ (l.length :: (l ++ tail)))
    (hpos : pos = pre.length) (hne : l ≠ []) (h63 : l.length ≤ 63) :
    parseDNSName msg (fuel + 1) pos acc first =
      parseDNSName msg fuel (pos + 1 + l.length)
        (acc ++ (if first then [] else [46]) ++ l) false := by
  subst hmsg hpos
  have hlt : pre.length < (pre ++ (l.length :: (l ++ tail))).length := by
    simp [List.length_append]
  have hgd : (pre ++ (l.length :: (l ++ tail))).getD pre.length 0 = l.length :=
    getD_append_cons pre _ _
  have hand : l.length &&& 192 = 0 := land_192_eq_zero _ (by omega)
  have hz : ¬ (l.length = 0) := by
    simpa using hne
  have hbound : ¬ ((pre ++ (l.length :: (l ++ tail))).length < pre.length + 1 + l.length) := by
    simp only [List.length_append, List.length_cons, not_lt]
    omega
  have hdrop : (pre ++ (l.length :: (l ++ tail))).drop (pre.length + 1) = l ++ tail :=
    drop_append_cons pre _ _
  rw [parseDNSName, hgd, if_pos hlt, if_neg (by simp [hand]), if_neg hz, if_neg hbound,
    hdrop, List.take_left]

/-- Reading the 0 terminator returns the accumulated name when it is
non-empty. -/
theorem parse_term_step (msg pre tail acc : List Nat) (first : Bool) (fuel pos : Nat)
    (hmsg : msg = pre ++ 0 :: tail) (hpos : pos = pre.length) (hacc : acc ≠ []) :
    parseDNSName msg (fuel + 1) pos acc first = NameRes.ok acc (pos + 1) := by
  subst hmsg hpos
  have hlt : pre.length < (pre ++ 0 :: tail).length := by simp [List.length_append]
  have hgd : (pre ++ 0 :: tail).getD pre.length 0 = 0 := getD_append_cons pre _ _
  rw [parseDNSName, hgd, if_pos hlt, if_neg (by decide), if_pos rfl, if_neg hacc]

/-- Decoding the encoding of a non-empty list of labels, as the suffix of
any message, with the `first` flag already cleared: every label is read in
order, joined by dots after the accumulator. -/
theorem parse_enc (L : List (List Nat)) :
    ∀ (pre acc : List Nat) (fuel pos : Nat),
      (∀ l ∈ L, l ≠ [] ∧ l.length ≤ 63) → L.length < fuel → acc ≠ [] →
      pos = pre.length →
      parseDNSName (pre ++ encodeParts L) fuel pos acc false =
        NameRes.ok (acc ++ L.flatMap (fun l => (46 : Nat) :: l))
          (pos + (encodeParts L).length) := by
  induction L with
  | nil =>
    intro pre acc fuel pos hL hf hacc hpos
    obtain ⟨m, rfl⟩ : ∃ m, fuel = m + 1 := ⟨fuel - 1, by omega⟩
    rw [show encodeParts [] = [0] from rfl,
      parse_term_step (pre ++ [0]) pre [] acc false m pos rfl hpos hacc]
    simp [encodeParts]
  | cons l L ih =>
    intro pre acc fuel pos hL hf hacc hpos
    obtain ⟨m, rfl⟩ : ∃ m, fuel = m + 1 := ⟨fuel - 1, by omega⟩
    have hl := hL l (List.mem_cons_self l L)
    have hmod : l.length % 256 = l.length := Nat.mod_eq_of_lt (by omega)
    have hsplit : pre ++ encodeParts (l :: L) = pre ++ (l.length :: (l ++ encodeParts L)) := by
      simp [encodeParts, hmod, List.append_assoc]
    rw [hsplit,
      parse_label_step (pre ++ (l.length :: (l ++ encodeParts L))) pre l (encodeParts L)
        acc false m pos rfl hpos hl.1 hl.2]
    have hre : pre ++ (l.length :: (l ++ encodeParts L)) =
        (pre ++ (l.length :: l)) ++ encodeParts L := by
      simp
    rw [hre,
      ih (pre ++ (l.length :: l)) (acc ++ (if false = true then [] else [46]) ++ l) m
        (pos + 1 + l.length) (fun x hx => hL x (List.mem_cons_of_mem l hx))
        (by simp only [List.length_cons] at hf; omega)
        (by simp [hl.1]) (by simp [List.length_append]; omega)]
    simp only [encodeParts, List.flatMap_cons, List.length_append, List.length_cons,
      List.append_assoc, List.cons_append, List.nil_append, List.singleton_append,
      if_neg (by decide : ¬ (false = true)), NameRes.ok.injEq]
    constructor
    · simp
    · omega

/-- The decoder on `[46].intercalate`: joining labels with dots. -/
theorem intercalate_cons_46 (L : List (List Nat)) :
    ∀ l : List Nat,
      [46].intercalate (l :: L) = l ++ L.flatMap (fun x => (46 : Nat) :: x) := by
  induction L with
  | nil => intro l; simp [List.intercalate]
  | cons m L ih =>
    intro l
    have hstep : [46].intercalate (l :: m :: L) = l ++ [46] ++ [46].intercalate (m :: L) := by
      rw [List.intercalate, List.intercalate, List.intersperse_cons_cons,
        List.flatten_cons, List.flatten_cons]
      simp [List.append_assoc]
    rw [hstep, ih m]
    simp

/-- Decoding the encoding of a non-empty list of well-formed labels from
the start of the message yields the dot-joined name and consumes the whole
encoding. -/
theorem parse_enc_top (L : List (List Nat)) (fuel : Nat)
    (hL : ∀ l ∈ L, l ≠ [] ∧ l.length ≤ 63) (hne : L ≠ []) (hf : L.length < fuel) :
    parseDNSName (encodeParts L) fuel 0 [] true =
      NameRes.ok ([46].intercalate L) (encodeParts L).length := by
  obtain ⟨l, L', rfl⟩ := List.exists_cons_of_ne_nil hne
  obtain ⟨m, rfl⟩ : ∃ m, fuel = m + 1 := ⟨fuel - 1, by omega⟩
  have hl := hL l (List.mem_cons_self l L')
  have hmod : l.length % 256 = l.length := Nat.mod_eq_of_lt (by omega)
  have henc : encodeParts (l :: L') = [] ++ (l.length :: (l ++ encodeParts L')) := by
    simp [encodeParts, hmod, List.append_assoc]
  rw [henc,
    parse_label_step ([] ++ (l.length :: (l ++ encodeParts L'))) [] l (encodeParts L')
      [] true m 0 rfl rfl hl.1 hl.2]
  have hre : ([] : List Nat) ++ (l.length :: (l ++ encodeParts L')) =
      ([] ++ (l.length :: l)) ++ encodeParts L' := by
    simp
  rw [hre,
    parse_enc L' ([] ++ (l.length :: l)) ([] ++ (if true = true then [] else [46]) ++ l) m
      (0 + 1 + l.length) (fun x hx => hL x (List.mem_cons_of_mem l hx))
      (by simp only [List.length_cons] at hf; omega)
      (by simp [hl.1]) (by simp; omega)]
  rw [intercalate_cons_46 L' l]
  simp only [List.nil_append, List.length_append, List.length_cons, List.append_assoc,
    if_pos rfl, NameRes.ok.injEq]
  constructor
  · simp
  · omega

/-- `splitOn` never returns the empty list of parts. -/
theorem splitOn46_ne_nil (name : List Nat) : name.splitOn 46 ≠ [] := by
  show name.splitOnP (fun b => b == 46) ≠ []
  exact List.splitOnP_ne_nil _ name

/-- Joining the dot-split parts of a byte string with dots restores it
(the `Nat` instance of the library round trip, proved directly over
`splitOnP` so it applies to the `BEq Nat` instance in use). -/
theorem intercalate_splitOn46 (name : List Nat) :
    [46].intercalate (name.splitOn 46) = name := by
  show [46].intercalate (name.splitOnP (fun b => b == 46)) = name
  induction name with
  | nil => simp [List.intercalate]
  | cons hd tl ih =>
    cases h : tl.splitOnP (fun b => b == 46) with
    | nil => exact absurd h (List.splitOnP_ne_nil _ tl)
    | cons hd' tl' =>
      rw [h] at ih
      rw [List.splitOnP_cons]
      rw [intercalate_cons_46 tl' hd'] at ih
      by_cases hh : hd = 46
      · subst hh
        rw [if_pos (by simp), h, intercalate_cons_46 (hd' :: tl') []]
        simp only [List.nil_append, List.flatMap_cons]
        rw [← ih]
        simp
      · rw [if_neg (by simp [hh]), h]
        simp only [List.modifyHead]
        rw [intercalate_cons_46 tl' (hd :: hd'), List.cons_append, ih]

/-- When every dot-separated label is non-empty, `addDNSName` encodes all
labels uniformly. -/
theorem addDNSName_eq_encodeParts (name : List Nat)
    (h : ∀ l ∈ name.splitOn 46, l ≠ []) :
    addDNSName name = encodeParts (name.splitOn 46) := by
  have hne : name.splitOn 46 ≠ [] := splitOn46_ne_nil name
  have hgl : (name.splitOn 46).getLast? = some ((name.splitOn 46).getLast hne) :=
    List.getLast?_eq_getLast_of_ne_nil hne
  have hlne : (name.splitOn 46).getLast hne ≠ [] := h _ (List.getLast_mem hne)
  have hlast : name.splitOn 46 =
      (name.splitOn 46).dropLast ++ [(name.splitOn 46).getLast hne] :=
    (List.dropLast_append_getLast hne).symm
  unfold addDNSName encodeParts
  rw [hgl]
  conv_rhs => rw [hlast]
  rw [List.flatMap_append]
  simp [hlne, List.append_assoc]

/-! Claim theorems. -/

/-- C1, counterexample: a datagram whose first answer is a well-formed
PTR record for the target service and whose second answer is malformed (a
single stray length byte) is not dropped: the registry goes from empty to
one device and the observer is invoked, even though decoding the second
answer record fails. -/
theorem c1_counterexample :
    parseRecordHeader
      ([0, 0, 128, 0, 0, 0, 0, 2, 0, 0, 0, 0] ++ addDNSName targetService ++
        [0, 12, 0, 1, 0, 0, 0, 0, 0, 0] ++ [1]) 50 46 = RecRes.fail 47 ∧
    parseMDNSResponse
      ([0, 0, 128, 0, 0, 0, 0, 2, 0, 0, 0, 0] ++ addDNSName targetService ++
        [0, 12, 0, 1, 0, 0, 0, 0, 0, 0] ++ [1]) 5 [] 50 =
      ParseOutcome.done [{ name := targetService, ip := 5, txtRecords := [] }]
        [{ name := targetService, ip := 5, txtRecords := [] }] ∧
    parseMDNSResponse
      ([0, 0, 128, 0, 0, 0, 0, 2, 0, 0, 0, 0] ++ addDNSName targetService ++
        [0, 12, 0, 1, 0, 0, 0, 0, 0, 0] ++ [1]) 5 [] 50 ≠
      ParseOutcome.done [] [] := by
  exact ⟨by decide, by decide, by decide⟩

/-- C1, amended: a failure while decoding one answer record does not drop
the datagram; the record is skipped and the loop continues with the
remaining records from the position where the failed parse left the
cursor (so a candidate assembled from the other records is still
reconciled). -/
theorem c1_failed_record_skipped (msg : List Nat) (fuel n pos p : Nat)
    (info : DeviceInfo) (t : Bool)
    (h : parseRecordHeader msg fuel pos = RecRes.fail p) :
    parseAnswers msg fuel (n + 1) pos info t = parseAnswers msg fuel n p info t :=
  parseAnswers_fail_step msg fuel n pos p info t h

/-- C1, witness for the amended theorem at a concrete malformed record. -/
theorem c1_failed_record_skipped_witness :
    parseAnswers [1] 5 1 0 { name := [], ip := 0, txtRecords := [] } false =
      parseAnswers [1] 5 0 1 { name := [], ip := 0, txtRecords := [] } false :=
  c1_failed_record_skipped [1] 5 0 0 1 { name := [], ip := 0, txtRecords := [] } false
    (by decide)

/-- C2: the second byte of a compression pointer is read without a bounds
check.  On a name whose length byte `0xC0` is the last byte of the
message the source reads one byte past the buffer: the model reports an
out-of-bounds read at index 1 of the 1-byte buffer, and a full datagram
ending in such a byte makes `parseMDNSResponse` perform the out-of-bounds
read. -/
theorem c2_oob_pointer_second_byte :
    parseDNSName [192] 5 0 [] true = NameRes.oob 1 ∧
    parseMDNSResponse [0, 0, 128, 0, 0, 0, 0, 1, 0, 0, 0, 0, 192] 7 [] 50 =
      ParseOutcome.oobRead := by
  decide

/-- C3: name decoding does not terminate on a pointer loop.  On a message
whose name at offset 12 is the self-referential compression pointer
`0xC0 0x0C`, every recursion bound `fuel` is exhausted, both for
`parseDNSName` itself and for a whole datagram carrying that name, so the
unbounded recursion of the source never returns. -/
theorem c3_pointer_loop_unbounded :
    (∀ fuel, parseDNSName [0, 0, 128, 0, 0, 0, 0, 1, 0, 0, 0, 0, 192, 12] fuel 12 [] true =
      NameRes.noFuel) ∧
    (∀ fuel senderIp registry,
      parseMDNSResponse [0, 0, 128, 0, 0, 0, 0, 1, 0, 0, 0, 0, 192, 12] senderIp registry fuel =
        ParseOutcome.outOfFuel) := by
  refine ⟨loop_noFuel, fun fuel senderIp registry => ?_⟩
  have hrec : parseRecordHeader [0, 0, 128, 0, 0, 0, 0, 1, 0, 0, 0, 0, 192, 12] fuel 12 =
      RecRes.noFuel := by
    unfold parseRecordHeader
    rw [loop_noFuel]
  have hans : parseAnswers [0, 0, 128, 0, 0, 0, 0, 1, 0, 0, 0, 0, 192, 12] fuel 1 12
      { name := [], ip := senderIp, txtRecords := [] } false = AnsRes.noFuel := by
    show parseAnswers [0, 0, 128, 0, 0, 0, 0, 1, 0, 0, 0, 0, 192, 12] fuel (0 + 1) 12
      { name := [], ip := senderIp, txtRecords := [] } false = AnsRes.noFuel
    rw [parseAnswers, hrec]
  show (match parseAnswers [0, 0, 128, 0, 0, 0, 0, 1, 0, 0, 0, 0, 192, 12] fuel 1 12
        { name := [], ip := senderIp, txtRecords := [] } false with
    | AnsRes.oob => ParseOutcome.oobRead
    | AnsRes.noFuel => ParseOutcome.outOfFuel
    | AnsRes.done info t =>
      ParseOutcome.done (reconcileIfTarget registry info t).1
        (reconcileIfTarget registry info t).2) = ParseOutcome.outOfFuel
  rw [hans]

/-- C4: reconciliation of a candidate looked up by name.  Not found: the
candidate is appended and the observer sees exactly it.  Found with
non-empty attributes: the entry's address and attributes are replaced in
place, the length is unchanged, and the observer sees the updated entry.
Found with empty attributes: registry unchanged, observer silent. -/
theorem c4_reconcile_cases :
    (∀ registry cand, findDevice registry cand.name = none →
      reconcile registry cand = (registry ++ [cand], [cand])) ∧
    (∀ registry cand i, findDevice registry cand.name = some i →
      cand.txtRecords ≠ [] →
      reconcile registry cand =
        (registry.set i
            { name := (registry.getD i cand).name, ip := cand.ip,
              txtRecords := cand.txtRecords },
          [{ name := (registry.getD i cand).name, ip := cand.ip,
             txtRecords := cand.txtRecords }]) ∧
      (reconcile registry cand).1.length = registry.length) ∧
    (∀ registry cand i, findDevice registry cand.name = some i →
      cand.txtRecords = [] → reconcile registry cand = (registry, [])) := by
  refine ⟨fun registry cand h => ?_, fun registry cand i h h2 => ?_,
    fun registry cand i h h2 => ?_⟩
  · simp [reconcile, h]
  · constructor
    · simp [reconcile, h, h2]
    · simp [reconcile, h, h2, List.length_set]
  · simp [reconcile, h, h2]

/-- C4, witness: the three cases at concrete registries. -/
theorem c4_reconcile_cases_witness :
    reconcile [] { name := [97], ip := 1, txtRecords := [] } =
      ([{ name := [97], ip := 1, txtRecords := [] }],
        [{ name := [97], ip := 1, txtRecords := [] }]) ∧
    reconcile [{ name := [97], ip := 1, txtRecords := [([107], [118])] }]
        { name := [97], ip := 2, txtRecords := [([107], [119])] } =
      ([{ name := [97], ip := 2, txtRecords := [([107], [119])] }],
        [{ name := [97], ip := 2, txtRecords := [([107], [119])] }]) ∧
    reconcile [{ name := [97], ip := 1, txtRecords := [([107], [118])] }]
        { name := [97], ip := 2, txtRecords := [] } =
      ([{ name := [97], ip := 1, txtRecords := [([107], [118])] }], []) := by
  refine ⟨c4_reconcile_cases.1 [] { name := [97], ip := 1, txtRecords := [] } (by decide),
    ?_, c4_reconcile_cases.2.2 [{ name := [97], ip := 1, txtRecords := [([107], [118])] }]
      { name := [97], ip := 2, txtRecords := [] } 0 (by decide) (by decide)⟩
  exact (c4_reconcile_cases.2.1 [{ name := [97], ip := 1, txtRecords := [([107], [118])] }]
    { name := [97], ip := 2, txtRecords := [([107], [119])] } 0 (by decide) (by decide)).1

/-- C9: for every service name, the query built by `sendQuery` is a
12-byte header — transaction id 0, flags 0x0100 (response bit 0x8000
clear), question count 1, answer/authority/additional counts 0, all
big-endian — followed by the encoded service name and then type PTR (12)
and class IN (1). -/
theorem c9_query_format (serviceType : List Nat) :
    (buildQuery serviceType).take 12 = [0, 0, 1, 0, 0, 1, 0, 0, 0, 0, 0, 0] ∧
    readU16 (buildQuery serviceType) 0 = 0 ∧
    readU16 (buildQuery serviceType) 2 = 256 ∧ 256 &&& 32768 = 0 ∧
    readU16 (buildQuery serviceType) 4 = 1 ∧
    readU16 (buildQuery serviceType) 6 = 0 ∧
    readU16 (buildQuery serviceType) 8 = 0 ∧
    readU16 (buildQuery serviceType) 10 = 0 ∧
    (buildQuery serviceType).drop 12 = addDNSName serviceType ++ [0, 12, 0, 1] ∧
    (buildQuery serviceType).length = 16 + (addDNSName serviceType).length := by
  have hq : buildQuery serviceType =
      0 :: 0 :: 1 :: 0 :: 0 :: 1 :: 0 :: 0 :: 0 :: 0 :: 0 :: 0 ::
        (addDNSName serviceType ++ [0, 12, 0, 1]) := by
    simp [buildQuery, u16be]
  refine ⟨by rw [hq]; rfl,
    by rw [hq]; simp [readU16, List.getD_cons_succ, List.getD_cons_zero],
    by rw [hq]; simp [readU16, List.getD_cons_succ, List.getD_cons_zero],
    by decide,
    by rw [hq]; simp [readU16, List.getD_cons_succ, List.getD_cons_zero],
    by rw [hq]; simp [readU16, List.getD_cons_succ, List.getD_cons_zero],
    by rw [hq]; simp [readU16, List.getD_cons_succ, List.getD_cons_zero],
    by rw [hq]; simp [readU16, List.getD_cons_succ, List.getD_cons_zero],
    by rw [hq]; rfl, ?_⟩
  rw [hq]
  simp [List.length_append]
  omega

/-- C6, counterexample: the name `a..b` (bytes `[97, 46, 46, 98]`) is
composed of dot-separated labels each of length at most 63 with no NUL
byte, yet encoding emits a zero length byte for the empty middle label,
so decoding stops there and returns only `a`: the round trip loses the
input. -/
theorem c6_counterexample :
    (∀ l ∈ ([97, 46, 46, 98] : List Nat).splitOn 46, l.length ≤ 63) ∧
    (0 : Nat) ∉ ([97, 46, 46, 98] : List Nat) ∧
    addDNSName [97, 46, 46, 98] = [1, 97, 0, 1, 98, 0] ∧
    decodeName (addDNSName [97, 46, 46, 98]) 10 = some [97] ∧
    some [97] ≠ some ([97, 46, 46, 98] : List Nat) := by
  refine ⟨by decide, by decide, by decide, by decide, by decide⟩

/-- C6, amended: for every name whose dot-separated labels are all
non-empty, of at most 63 bytes each, and containing no NUL byte, decoding
the encoding (with enough fuel for the pointer-free parse) returns the
original name. -/
theorem c6_round_trip (name : List Nat)
    (hlab : ∀ l ∈ name.splitOn 46, l ≠ [] ∧ l.length ≤ 63)
    (hnul : (0 : Nat) ∉ name) :
    decodeName (addDNSName name) ((addDNSName name).length + 1) = some name := by
  have hne : name.splitOn 46 ≠ [] := splitOn46_ne_nil name
  have henc : addDNSName name = encodeParts (name.splitOn 46) :=
    addDNSName_eq_encodeParts name (fun l hl => (hlab l hl).1)
  have hfuel : (name.splitOn 46).length < (encodeParts (name.splitOn 46)).length + 1 := by
    have := encodeParts_length_lt (name.splitOn 46)
    omega
  rw [henc]
  unfold decodeName
  rw [parse_enc_top (name.splitOn 46) ((encodeParts (name.splitOn 46)).length + 1)
    hlab hne hfuel]
  rw [intercalate_splitOn46]

/-- C6, witness for the amended round trip at the name `a.b`. -/
theorem c6_round_trip_witness :
    decodeName (addDNSName [97, 46, 98]) ((addDNSName [97, 46, 98]).length + 1) =
      some [97, 46, 98] :=
  c6_round_trip [97, 46, 98] (by decide) (by decide)

/-- C7: the TXT decoder walks length-prefixed entries until the slice is
exhausted; an entry whose declared length exceeds the remaining slice
abandons that entry and the rest of the record, keeping what was already
decoded; an entry without `=` is skipped while the following sibling
entries still decode; an entry `key=value` (split at the first `=`) is
stored; and on a duplicate key the later entry wins in the resulting
mapping. -/
theorem c7_parseTXT_spec :
    (∀ txt, parseTXT [] txt = txt) ∧
    (∀ len rest txt, rest.length < len → parseTXT (len :: rest) txt = txt) ∧
    (∀ e rest txt, e.length ≤ 255 → (61 : Nat) ∉ e →
      parseTXT (e.length :: (e ++ rest)) txt = parseTXT rest txt) ∧
    (∀ k v rest txt, (k ++ 61 :: v).length ≤ 255 → (61 : Nat) ∉ k →
      parseTXT ((k ++ 61 :: v).length :: ((k ++ 61 :: v) ++ rest)) txt =
        parseTXT rest (upsert txt k v)) ∧
    (∀ txt k v₁ v₂, lookupKey (upsert (upsert txt k v₁) k v₂) k = some v₂) := by
  refine ⟨fun txt => by rw [parseTXT], fun len rest txt h => ?_, fun e rest txt h255 h61 => ?_,
    fun k v rest txt h255 h61 => ?_, fun txt k v₁ v₂ => ?_⟩
  · rw [parseTXT, if_pos h]
  · have hlen : ¬ ((e ++ rest).length < e.length) := by
      simp [List.length_append]
    rw [parseTXT, if_neg hlen, List.take_left, splitEq_of_no_sep e h61, List.drop_left]
  · have hlen : ¬ (((k ++ 61 :: v) ++ rest).length < (k ++ 61 :: v).length) := by
      simp [List.length_append]
    rw [parseTXT, if_neg hlen, List.take_left, splitEq_key_value k v h61, List.drop_left]
  · exact lookupKey_upsert (upsert txt k v₁) k v₂

/-- C7, witness: the four behaviours at concrete record slices — the
entry `a=42` after the separator-free entry `novalue`, a truncated
entry, and a duplicate key `a`. -/
theorem c7_parseTXT_spec_witness :
    parseTXT [] [([97], [49])] = [([97], [49])] ∧
    parseTXT [9, 98, 61] [([97], [49])] = [([97], [49])] ∧
    parseTXT [7, 110, 111, 118, 97, 108, 117, 101, 4, 97, 61, 52, 50] [] =
      parseTXT [4, 97, 61, 52, 50] [] ∧
    parseTXT [4, 97, 61, 52, 50] [] = parseTXT [] [([97], [52, 50])] ∧
    lookupKey (upsert (upsert [] [97] [49]) [97] [50]) [97] = some [50] := by
  refine ⟨c7_parseTXT_spec.1 [([97], [49])],
    c7_parseTXT_spec.2.1 9 [98, 61] [([97], [49])] (by decide),
    c7_parseTXT_spec.2.2.1 [110, 111, 118, 97, 108, 117, 101] [4, 97, 61, 52, 50] []
      (by decide) (by decide),
    ?_, c7_parseTXT_spec.2.2.2.2 [] [97] [49] [50]⟩
  exact c7_parseTXT_spec.2.2.2.1 [97] [52, 50] [] [] (by decide) (by decide)

/-- C5: `stopDiscovery` does not clear the registry.  Stopping from a
running state with one discovered device leaves the device list intact
(only the running flag and socket change), contradicting the documented
wholesale clear on stop. -/
theorem c5_stop_does_not_clear :
    stopDiscovery
        { running := true, socketOpen := true,
          discoveredDevices := [{ name := [97], ip := 0, txtRecords := [] }] } =
      { running := false, socketOpen := false,
        discoveredDevices := [{ name := [97], ip := 0, txtRecords := [] }] } ∧
    (stopDiscovery
        { running := true, socketOpen := true,
          discoveredDevices := [{ name := [97], ip := 0, txtRecords := [] }] }).discoveredDevices ≠
      [] := by
  decide

/-- C8: a length byte with value `0x40` — whose top two bits are `01`,
not `11` — is treated as a compression pointer, because the source tests
`len & 0xC0` for being nonzero rather than equal to `0xC0`.  At offset 3
of the message `[1, 97, 0, 64, 0]` the byte 64 is followed as a pointer
to offset 0 and the parse returns the name found there. -/
theorem c8_single_high_bit_is_pointer :
    parseDNSName [1, 97, 0, 64, 0] 10 3 [] true = NameRes.ok [97] 5 := by
  decide

/-- C10: calling `startDiscovery` while already running fails and changes
nothing: the state (including the registry) is returned untouched and no
socket, query or thread event occurs. -/
theorem c10_start_while_running (s : ImplState) (serviceType : List Nat) (env : NetEnv)
    (h : s.running = true) :
    startDiscovery s serviceType env = (false, s, []) := by
  simp [startDiscovery, h]

/-- C10, witness at a concrete running state. -/
theorem c10_start_while_running_witness :
    startDiscovery { running := true, socketOpen := true, discoveredDevices := [] } [97]
        { socketOk := true, reuseOk := true, bindOk := true, joinOk := true, sendOk := true } =
      (false, { running := true, socketOpen := true, discoveredDevices := [] }, []) :=
  c10_start_while_running _ _ _ rfl

end MDNS
